import Mathlib

/-!
Shallow embedding of the BookWeb service-worker core (`src/sw.js`):
the cache storage (VersionedStore), the pending-sync queue (DurableQueue),
the install / activate / fetch / sync / push event handlers, and theorems
settling the behavioural claims about them.
-/

namespace BookWeb

/-! ## Basic request/response model -/

/-- HTTP method of a request.  The fetch handler only distinguishes
GET from everything else (`event.request.method !== 'GET'`). -/
inductive Method where
  | GET
  | POST
  | PUT
  | DELETE
  | OTHER
deriving DecidableEq, Repr

/-- `response.type` as the handler tests it: the cache-write guard only
distinguishes `'basic'` from every other type (cors, opaque, default, error). -/
inductive ResType where
  | basic
  | nonBasic
deriving DecidableEq, Repr

/-- A response value: status, status text, `type`, body, and the
Content-Type header (when set). -/
structure Response where
  status : Nat
  statusText : Option String
  rtype : ResType
  body : String
  contentType : Option String
deriving DecidableEq, Repr

/-- A request descriptor: method, URL, and the value of
`request.headers.get('accept')` (`none` when the header is absent,
matching the `null` that `Headers.get` returns). -/
structure Request where
  method : Method
  url : String
  accept : Option String
deriving DecidableEq, Repr

/-- Outcome of a network `fetch` of a URL: either the promise resolves
with a response, or it rejects (network failure). -/
inductive NetOutcome where
  | ok (r : Response)
  | netFail
deriving DecidableEq, Repr

/-- The network, as a map from URL to fetch outcome. -/
abbrev Network := String → NetOutcome

/-! ## String `includes` (JS `String.prototype.includes`) -/

/-- `isPrefList pat l` : `pat` is a prefix of `l` (character lists). -/
def isPrefList : List Char → List Char → Bool
  | [], _ => true
  | _ :: _, [] => false
  | a :: as, b :: bs => a = b && isPrefList as bs

/-- `hasSubList pat l` : `pat` occurs as a contiguous sublist of `l`. -/
def hasSubList (pat : List Char) : List Char → Bool
  | [] => isPrefList pat []
  | b :: bs => isPrefList pat (b :: bs) || hasSubList pat bs

/-- JS `s.includes(pat)` : substring containment test. -/
def strIncludes (s pat : String) : Bool :=
  hasSubList pat.data s.data

/-! ## Cache storage (VersionedStore) -/

/-- One named cache: an association list from request URL to stored response. -/
abbrev Cache := List (String × Response)

/-- The cache storage: named caches in storage order.  The cache name is
the generation label (`literaverse-v3`, older deployments used other names). -/
abbrev CacheStorage := List (String × Cache)

/-- The current generation label, `const CACHE_NAME = 'literaverse-v3'`. -/
def CACHE_NAME : String := "literaverse-v3"

/-- The startup manifest `urlsToCache` from `src/sw.js`. -/
def urlsToCache : List String :=
  ["/", "/index.html", "/styles.css", "/script.js", "/reader.html",
   "/dashboard.html", "/bookshelf.html", "/community.html", "/profile.html",
   "/manifest.json", "/assets/icons/icon-192x192.png",
   "/assets/icons/icon-512x512.png"]

/-- Look a named cache up in the storage (first match, like `caches.open`
on an existing name). -/
def getCache (cs : CacheStorage) (n : String) : Option Cache :=
  (cs.find? (fun c => c.1 = n)).map (fun c => c.2)

/-- Look a URL up in one cache. -/
def cacheLookup (c : Cache) (url : String) : Option Response :=
  (c.find? (fun e => e.1 = url)).map (fun e => e.2)

/-- `caches.match(url)` : search every cache in storage order, first hit wins. -/
def cachesMatch (cs : CacheStorage) (url : String) : Option Response :=
  match cs with
  | [] => none
  | c :: rest =>
    match cacheLookup c.2 url with
    | some r => some r
    | none => cachesMatch rest url

/-- `cache.put(url, r)` : overwrite any entry for `url`, then add the new one. -/
def cachePut (c : Cache) (url : String) (r : Response) : Cache :=
  c.filter (fun e => e.1 ≠ url) ++ [(url, r)]

/-- `caches.open(n)` followed by a `put`: update the named cache if it
exists, otherwise create it. -/
def putIntoNamed (cs : CacheStorage) (n url : String) (r : Response) : CacheStorage :=
  if cs.any (fun c => c.1 = n) then
    cs.map (fun c => if c.1 = n then (c.1, cachePut c.2 url r) else c)
  else
    cs ++ [(n, cachePut [] url r)]

/-! ## DurableQueue (the `pending_sync` IndexedDB store) -/

/-- A queued operation in `pending_sync`: records keyed by a unique `id`,
holding the target `url` and the serialized `data` replayed as a POST body. -/
structure QueuedOp where
  id : Nat
  url : String
  data : String
deriving DecidableEq, Repr

/-- The queue, in enqueue order (as `db.getAll('pending_sync')` enumerates it). -/
abbrev Queue := List QueuedOp

/-- `db.delete('pending_sync', i)` : remove the record with key `i`. -/
def deleteById (q : Queue) (i : Nat) : Queue :=
  q.filter (fun op => op.id ≠ i)

/-- Ids are pairwise distinct (the store is keyed by `id`, so this holds
of every real queue state). -/
def uniqueIds (q : Queue) : Prop :=
  q.Pairwise (fun a b => a.id ≠ b.id)

instance (q : Queue) : Decidable (uniqueIds q) := by
  unfold uniqueIds; infer_instance

/-- Whole service-worker state: the pending-sync queue and the cache storage. -/
structure SWState where
  queue : Queue
  cs : CacheStorage
deriving DecidableEq, Repr

/-! ## Activate handler (`purgeOtherGenerations`) -/

/-- The activate handler: delete every cache whose name is not `CACHE_NAME`. -/
def activate (cs : CacheStorage) : CacheStorage :=
  cs.filter (fun c => c.1 = CACHE_NAME)

/-! ## Install handler (`bulkPopulate`) -/

/-- Fetch every URL of a manifest; `cache.addAll` is atomic, so one failing
fetch fails the whole batch and nothing is added. -/
def fetchAll (net : Network) : List String → Option (List (String × Response))
  | [] => some []
  | u :: rest =>
    match net u with
    | .netFail => none
    | .ok r => (fetchAll net rest).map (fun es => (u, r) :: es)

/-- Add a batch of fetched entries to a named cache. -/
def putAllNamed (cs : CacheStorage) (n : String) : List (String × Response) → CacheStorage
  | [] => cs
  | (u, r) :: rest => putAllNamed (putIntoNamed cs n u r) n rest

/-- `caches.open(CACHE_NAME).then(cache => cache.addAll(urls))` over an
arbitrary manifest: all-or-nothing pre-population. -/
def installManifest (net : Network) (urls : List String) (cs : CacheStorage) :
    Option CacheStorage :=
  (fetchAll net urls).map (fun es => putAllNamed cs CACHE_NAME es)

/-- The install handler of `src/sw.js`: pre-populate `urlsToCache`.
`none` means the install promise rejected (install failed). -/
def install (net : Network) (cs : CacheStorage) : Option CacheStorage :=
  installManifest net urlsToCache cs

/-! ## Fetch handler (FetchOrchestrator) -/

/-- `url.startsWith('chrome-extension://')`. -/
def isChromeExt (url : String) : Bool :=
  isPrefList "chrome-extension://".data url.data

/-- What `event.respondWith` settled with (or that it was never called). -/
inductive FetchResult where
  /-- The handler returned without calling `respondWith` (non-GET or
  chrome-extension request): browser default handling. -/
  | passthrough
  /-- `respondWith` resolved with a response. -/
  | responded (r : Response)
  /-- `respondWith` resolved with `undefined` (no response): the page
  sees a network error. -/
  | respondedNone
  /-- An exception escaped the handler chain: `respondWith` rejects with
  an uncaught fault. -/
  | threw
deriving DecidableEq, Repr

/-- Full observable outcome of one fetch event: the settled result, the
cache write the handler performed (if any), and the URL it fetched from
the network (if it fetched at all). -/
structure FetchOutcome where
  result : FetchResult
  cacheWrite : Option (String × Response)
  netCall : Option String
deriving DecidableEq, Repr

/-- The synthesized degraded response
`new Response('You are offline', { status: 503, ... })`; a constructed
response has a non-basic (`'default'`) type. -/
def offlineResponse : Response :=
  { status := 503, statusText := some "Service Unavailable",
    rtype := .nonBasic, body := "You are offline",
    contentType := some "text/plain" }

/-- The fetch event listener of `src/sw.js` (lines 42-93), as a function of
the network, the current cache storage and the request. -/
def handleFetch (net : Network) (cs : CacheStorage) (req : Request) : FetchOutcome :=
  if req.method ≠ Method.GET then
    { result := .passthrough, cacheWrite := none, netCall := none }
  else if isChromeExt req.url then
    { result := .passthrough, cacheWrite := none, netCall := none }
  else
    match cachesMatch cs req.url with
    | some r => { result := .responded r, cacheWrite := none, netCall := none }
    | none =>
      match net req.url with
      | .ok r =>
        if r.status = 200 ∧ r.rtype = ResType.basic then
          { result := .responded r, cacheWrite := some (req.url, r),
            netCall := some req.url }
        else
          { result := .responded r, cacheWrite := none, netCall := some req.url }
      | .netFail =>
        match req.accept with
        | none =>
          -- `event.request.headers.get('accept')` is null; `.includes`
          -- on null throws a TypeError.
          { result := .threw, cacheWrite := none, netCall := some req.url }
        | some a =>
          if strIncludes a "text/html" then
            match cachesMatch cs "/offline.html" with
            | some r => { result := .responded r, cacheWrite := none,
                          netCall := some req.url }
            | none => { result := .respondedNone, cacheWrite := none,
                        netCall := some req.url }
          else
            { result := .responded offlineResponse, cacheWrite := none,
              netCall := some req.url }

/-- Apply the handler's cache write to the storage (the write goes into
`CACHE_NAME`, via `caches.open(CACHE_NAME)`). -/
def applyWrite (cs : CacheStorage) : Option (String × Response) → CacheStorage
  | none => cs
  | some (u, r) => putIntoNamed cs CACHE_NAME u r

/-- One fetch event as a transition on the whole service-worker state.
The fetch listener never touches the `pending_sync` store, so the queue
component is returned unchanged. -/
def fetchEvent (net : Network) (s : SWState) (req : Request) : SWState × FetchOutcome :=
  let o := handleFetch net s.cs req
  ({ queue := s.queue, cs := applyWrite s.cs o.cacheWrite }, o)

/-! ## Sync handler (SyncDrainer) -/

/-- Outcome of replaying one queued operation as a POST: `true` when the
fetch promise resolves, `false` when it rejects. -/
abbrev ReplayNet := QueuedOp → Bool

/-- The `for (const item of pendingSync)` loop of `syncReadingProgress`:
walk the snapshot in order; on a resolved replay delete the item from the
store; on a rejected replay the thrown error is caught by the enclosing
try/catch and the drain stops, leaving the store as it is. -/
def replayLoop (net : ReplayNet) : List QueuedOp → Queue → Queue
  | [], q => q
  | op :: rest, q =>
    if net op then replayLoop net rest (deleteById q op.id)
    else q

/-- `syncReadingProgress()` : snapshot the queue with
`db.getAll('pending_sync')` and run the replay loop over it. -/
def syncReadingProgress (net : ReplayNet) (q : Queue) : Queue :=
  replayLoop net q q

/-- The sync event listener: drain only when the tag is exactly
`'sync-reading-progress'`.  Returns the new state and whether a drain ran. -/
def onSync (net : ReplayNet) (tag : String) (s : SWState) : SWState × Bool :=
  if tag = "sync-reading-progress" then
    ({ queue := syncReadingProgress net s.queue, cs := s.cs }, true)
  else
    (s, false)

/-! ## Push handler (NotificationDispatcher) -/

/-- The fields the handler reads from the parsed push payload
(`data.title`, `data.body`, `data.id`, `data.actions`); `none` models a
field that is absent (`undefined`). -/
structure PushJson where
  title : Option String
  body : Option String
  id : Option String
  actions : Option (List String)
deriving DecidableEq, Repr

/-- `event.data.json()` : a payload that parses to an object, or one on
which parsing throws. -/
inductive PushData where
  | valid (j : PushJson)
  | malformed
deriving DecidableEq, Repr

/-- Result of one push event. -/
inductive PushResult where
  /-- Handler returned without showing anything (`if (!event.data) return`). -/
  | noop
  /-- `showNotification(title, options)` was requested with these fields. -/
  | shown (title : Option String) (body : Option String)
      (primaryKey : Option String) (actions : List String)
  /-- `event.data.json()` threw: the exception escapes the listener. -/
  | threw
deriving DecidableEq, Repr

/-- The push event listener of `src/sw.js` (lines 122-142).  The argument
is `event.data` (`none` when the push carried no data). -/
def onPush : Option PushData → PushResult
  | none => .noop
  | some .malformed => .threw
  | some (.valid j) => .shown j.title j.body j.id (j.actions.getD [])

/-- Whether a push result is a display request. -/
def producesDisplay : PushResult → Bool
  | .shown _ _ _ _ => true
  | _ => false

/-! ## Concrete values used in witnesses and counterexamples -/

/-- A network on which every fetch fails. -/
def netDown : Network := fun _ => NetOutcome.netFail

/-- A basic 200 response. -/
def okResp : Response :=
  { status := 200, statusText := some "OK", rtype := .basic,
    body := "shell", contentType := some "text/html" }

/-- A network on which every fetch succeeds with `okResp`. -/
def netUp : Network := fun _ => NetOutcome.ok okResp

/-- The cache storage right after a successful install against `netUp`. -/
def installedCS : CacheStorage := (install netUp []).getD []

/-- A mutating request (reading-progress upload) issued while offline. -/
def postReq : Request :=
  { method := .POST, url := "/api/progress/sync", accept := some "application/json" }

/-- A GET navigation request that expects an HTML document. -/
def htmlReq : Request :=
  { method := .GET, url := "/books/42", accept := some "text/html,application/xhtml+xml" }

/-- A GET request for a stylesheet (non-document). -/
def cssReq : Request :=
  { method := .GET, url := "/extra.css", accept := some "text/css" }

/-- A GET request carrying no Accept header. -/
def noAcceptReq : Request :=
  { method := .GET, url := "/api/data.bin", accept := none }

/-- A cacheable GET request. -/
def getReq : Request :=
  { method := .GET, url := "/books/1", accept := some "text/html" }

/-- The parse result of the empty push payload `{}`: every field absent. -/
def emptyPayload : PushJson :=
  { title := none, body := none, id := none, actions := none }

/-- Three queued reading-progress operations. -/
def opA : QueuedOp := { id := 1, url := "/api/progress", data := "p1" }

/-- Second queued operation. -/
def opB : QueuedOp := { id := 2, url := "/api/progress", data := "p2" }

/-- Third queued operation. -/
def opC : QueuedOp := { id := 3, url := "/api/progress", data := "p3" }

/-- A replay network on which exactly the operation with id 2 fails. -/
def replayNetB : ReplayNet := fun op => op.id != 2

/-- A storage holding a stale generation next to the current one. -/
def twoGenCS : CacheStorage :=
  [("literaverse-v2", [("/", okResp)]), (CACHE_NAME, [("/old", okResp)])]

/-- A network failing exactly on `/styles.css`. -/
def netNoCss : Network :=
  fun u => if u = "/styles.css" then NetOutcome.netFail else NetOutcome.ok okResp

/-- A one-entry current-generation storage. -/
def oneEntryCS : CacheStorage := [(CACHE_NAME, [("/books/1", okResp)])]

/-- Well-formedness of the cache storage: no stored key is a
chrome-extension URL.  This holds of every storage the engine itself
builds (see the preservation lemmas below), since the fetch path skips
chrome-extension requests and the install manifest has none. -/
def wfCS (cs : CacheStorage) : Prop :=
  ∀ c ∈ cs, ∀ e ∈ c.2, isChromeExt e.1 = false

/-! ## C1 — mutating requests and the queue -/

/-- C1 counterexample: a mutating (POST) request issued while the network
is failing appends zero QueuedOperations, not exactly one — the fetch
handler skips non-GET requests entirely, and nothing in `src/sw.js`
appends to `pending_sync`. -/
theorem C1_counterexample :
    ((fetchEvent netDown { queue := [], cs := [] } postReq).1.queue.length = 0) ∧
    ¬ ((fetchEvent netDown { queue := [], cs := [] } postReq).1.queue.length = 1) := by
  decide

/-- C1 (amended): on every mutating (non-GET) request the fetch handler
returns without intercepting: the service-worker state (in particular the
`pending_sync` queue) is unchanged — zero operations appended — and the
request passes through to the browser with no cache write and no network
call by the engine. -/
theorem C1_non_get_passthrough (net : Network) (s : SWState) (req : Request)
    (h : req.method ≠ Method.GET) :
    fetchEvent net s req =
      (s, { result := .passthrough, cacheWrite := none, netCall := none }) := by
  simp only [fetchEvent, handleFetch, if_pos h, applyWrite]

/-- Witness for `C1_non_get_passthrough` at the concrete POST request. -/
theorem C1_non_get_passthrough_witness :
    fetchEvent netDown { queue := [], cs := [] } postReq =
      ({ queue := [], cs := [] },
       { result := .passthrough, cacheWrite := none, netCall := none }) :=
  C1_non_get_passthrough netDown { queue := [], cs := [] } postReq (by decide)

/-! ## C2 — degraded responses on network failure -/

/-- C2: after a successful install, `/offline.html` is not cached (it is
missing from `urlsToCache`), so a document request with no cache entry and
a failing network gets `undefined` from `caches.match('/offline.html')` —
`respondWith` resolves with no response instead of the offline placeholder
the handler's comment promises.  The non-document half does hold: a
non-document request under the same conditions gets the synthesized 503
plain-text response. -/
theorem C2_offline_page_never_cached :
    ((install netUp []).isSome = true) ∧
    (cachesMatch installedCS "/offline.html" = none) ∧
    ((handleFetch netDown installedCS htmlReq).result = FetchResult.respondedNone) ∧
    ((handleFetch netDown installedCS cssReq).result =
      FetchResult.responded offlineResponse) := by
  decide

/-! ## C4 — uncaught faults -/

/-- C4: two inputs on which a handler raises an uncaught fault instead of
returning a well-formed response: a GET request with no Accept header on
the offline-fallback path (the code calls `.includes` on the `null` that
`headers.get('accept')` returns), and a push event whose payload is not
valid JSON (`event.data.json()` throws). -/
theorem C4_uncaught_faults :
    ((handleFetch netDown [] noAcceptReq).result = FetchResult.threw) ∧
    (onPush (some PushData.malformed) = PushResult.threw) := by
  decide

/-! ## C5 — push payload handling -/

/-- C5 counterexample: `onPush({})` does produce a display request — the
handler only guards against an absent `event.data`, then calls
`showNotification(data.title, ...)` unconditionally, so an empty object
payload shows a notification with undefined title and body. -/
theorem C5_counterexample :
    producesDisplay (onPush (some (PushData.valid emptyPayload))) = true := by
  decide

/-- C5 (amended): only a push event with no payload at all is a no-op;
an empty-object payload `{}` produces a display request (with undefined
title, body and correlation id), and a malformed payload throws from
`event.data.json()` rather than silently no-oping. -/
theorem C5_push_payload_handling :
    (onPush none = PushResult.noop) ∧
    (onPush (some (PushData.valid emptyPayload)) =
      PushResult.shown none none none []) ∧
    (onPush (some PushData.malformed) = PushResult.threw) := by
  decide

/-! ## C10 — sync tag guard -/

/-- C10: for every sync event whose tag is not exactly
`'sync-reading-progress'` the sync handler is a no-op: no drain runs and
the whole state (queue and cache storage) is returned unchanged. -/
theorem C10_sync_tag_guard (net : ReplayNet) (tag : String) (s : SWState)
    (h : tag ≠ "sync-reading-progress") :
    onSync net tag s = (s, false) := by
  simp only [onSync, if_neg h]

/-- Witness for `C10_sync_tag_guard` at a concrete foreign tag. -/
theorem C10_sync_tag_guard_witness :
    onSync (fun _ => true) "periodic-cleanup" { queue := [opA], cs := twoGenCS } =
      ({ queue := [opA], cs := twoGenCS }, false) :=
  C10_sync_tag_guard (fun _ => true) "periodic-cleanup"
    { queue := [opA], cs := twoGenCS } (by decide)

/-! ## C7 — generation purge -/

/-- Filtering with a predicate and then searching for it finds the same
first witness as searching the original list. -/
lemma find_filter_same (p : String × Cache → Bool) (cs : CacheStorage) :
    (cs.filter p).find? p = cs.find? p := by
  induction cs with
  | nil => rfl
  | cons c rest ih =>
    by_cases h : p c
    · simp [List.filter_cons, List.find?_cons, h, ih]
    · simp [List.filter_cons, List.find?_cons, h, ih]

/-- C7: after the activate handler runs, no cache of a prior generation is
retrievable, the current-generation cache is exactly what it was before the
purge, and purging twice in a row is the same as purging once. -/
theorem C7_purge_generations (cs : CacheStorage) (g : String) (hg : g ≠ CACHE_NAME) :
    (getCache (activate cs) g = none) ∧
    (getCache (activate cs) CACHE_NAME = getCache cs CACHE_NAME) ∧
    (activate (activate cs) = activate cs) := by
  refine ⟨?_, ?_, ?_⟩
  · unfold getCache activate
    have : (cs.filter (fun c => decide (c.1 = CACHE_NAME))).find?
        (fun c => decide (c.1 = g)) = none := by
      rw [List.find?_eq_none]
      intro c hc
      have hmem := List.of_mem_filter hc
      simp only [decide_eq_true_eq] at hmem ⊢
      intro h
      exact hg (h ▸ hmem)
    simp [this]
  · unfold getCache activate
    rw [find_filter_same]
  · unfold activate
    simp [List.filter_filter]

/-- Witness for `C7_purge_generations` at a two-generation storage. -/
theorem C7_purge_generations_witness :
    (getCache (activate twoGenCS) "literaverse-v2" = none) ∧
    (getCache (activate twoGenCS) CACHE_NAME = getCache twoGenCS CACHE_NAME) ∧
    (activate (activate twoGenCS) = activate twoGenCS) :=
  C7_purge_generations twoGenCS "literaverse-v2" (by decide)

/-! ## C8 — all-or-nothing install -/

/-- If any URL in a manifest fails to fetch, the whole batched fetch fails. -/
lemma fetchAll_eq_none (net : Network) (u : String) (urls : List String)
    (hu : u ∈ urls) (hf : net u = NetOutcome.netFail) :
    fetchAll net urls = none := by
  induction urls with
  | nil => cases hu
  | cons v rest ih =>
    rcases List.mem_cons.mp hu with h | h
    · subst h
      simp [fetchAll, hf]
    · have hr := ih h
      unfold fetchAll
      cases hnv : net v with
      | netFail => rfl
      | ok r => simp [hr]

/-- C8: startup pre-population is all-or-nothing — for every manifest in
which some resource fails to fetch, the install step reports overall
failure (`none`) and produces no cache state; and the engine's install is
exactly the manifest install applied to `urlsToCache`. -/
theorem C8_install_all_or_nothing (net : Network) (urls : List String)
    (cs : CacheStorage) (u : String) (hu : u ∈ urls)
    (hf : net u = NetOutcome.netFail) :
    (installManifest net urls cs = none) ∧
    (install net cs = installManifest net urlsToCache cs) := by
  refine ⟨?_, rfl⟩
  unfold installManifest
  rw [fetchAll_eq_none net u urls hu hf]
  rfl

/-- Witness for `C8_install_all_or_nothing` at a concrete failing manifest
entry. -/
theorem C8_install_all_or_nothing_witness :
    (installManifest netNoCss urlsToCache [] = none) ∧
    (install netNoCss [] = installManifest netNoCss urlsToCache []) :=
  C8_install_all_or_nothing netNoCss urlsToCache [] "/styles.css"
    (by decide) (by decide)

/-! ## C9 — cache-write invariant -/

/-- Everything the handler writes to the cache comes from a GET request to
a non-chrome-extension URL whose network response was a basic 200: the
invariant, as a helper usable by other lemmas. -/
lemma handleFetch_cacheWrite_inv (net : Network) (cs : CacheStorage)
    (req : Request) (u : String) (r : Response)
    (h : (handleFetch net cs req).cacheWrite = some (u, r)) :
    req.method = Method.GET ∧ isChromeExt req.url = false ∧ u = req.url ∧
    r.status = 200 ∧ r.rtype = ResType.basic ∧ net req.url = NetOutcome.ok r := by
  unfold handleFetch at h
  repeat' split at h
  all_goals simp_all

/-- C9: invariant of the fetch path — an entry is written to the cache
only when the request was a GET to a non-chrome-extension URL and the
network returned a same-origin basic response with success status 200;
non-GET requests and non-basic (cross-origin or opaque) responses are
never cached. -/
theorem C9_cache_write_invariant (net : Network) (cs : CacheStorage)
    (req : Request) (u : String) (r : Response)
    (h : (handleFetch net cs req).cacheWrite = some (u, r)) :
    req.method = Method.GET ∧ isChromeExt req.url = false ∧ u = req.url ∧
    r.status = 200 ∧ r.rtype = ResType.basic ∧ net req.url = NetOutcome.ok r :=
  handleFetch_cacheWrite_inv net cs req u r h

/-- Witness for `C9_cache_write_invariant` at a concrete cached fetch. -/
theorem C9_cache_write_invariant_witness :
    getReq.method = Method.GET ∧ isChromeExt getReq.url = false ∧
    "/books/1" = getReq.url ∧ okResp.status = 200 ∧
    okResp.rtype = ResType.basic ∧ netUp getReq.url = NetOutcome.ok okResp :=
  C9_cache_write_invariant netUp [] getReq "/books/1" okResp (by decide)

/-! ## C3 — drain: removal only on success, halt on failure -/

/-- The replay loop only ever deletes entries, so its result is a sublist
of the starting queue (in particular, surviving operations keep their
original order). -/
lemma replayLoop_sublist (net : ReplayNet) (l : List QueuedOp) :
    ∀ q : Queue, (replayLoop net l q).Sublist q := by
  induction l with
  | nil => intro q; exact List.Sublist.refl q
  | cons op rest ih =>
    intro q
    unfold replayLoop
    by_cases h : net op
    · rw [if_pos h]
      exact (ih (deleteById q op.id)).trans (List.filter_sublist q)
    · rw [if_neg h]

/-- An operation whose replay fails survives the loop, as long as no
successfully replayed snapshot element shares its id. -/
lemma replayLoop_mem_of_fail (net : ReplayNet) (l : List QueuedOp) :
    ∀ (q : Queue) (op : QueuedOp), op ∈ q → net op = false →
      (∀ op2 ∈ l, net op2 = true → op2.id ≠ op.id) →
      op ∈ replayLoop net l q := by
  induction l with
  | nil => intro q op hq _ _; exact hq
  | cons hd rest ih =>
    intro q op hq hf hl
    unfold replayLoop
    by_cases h : net hd
    · rw [if_pos h]
      refine ih (deleteById q hd.id) op ?_ hf ?_
      · have hne : hd.id ≠ op.id := hl hd (List.mem_cons_self hd rest) h
        exact List.mem_filter.mpr ⟨hq, by simpa using Ne.symm hne⟩
      · intro op2 h2 hn2
        exact hl op2 (List.mem_cons_of_mem hd h2) hn2
    · rw [if_neg h]
      exact hq

/-- C3: during a drain an operation is removed only on confirmed replay
success — every operation whose replay fails stays queued — the surviving
queue is a sublist of the original (original order preserved), and in the
concrete three-operation scenario where the second replay fails, operation
one is removed while operations two and three remain in order. -/
theorem C3_drain_halt_and_order (net : ReplayNet) (q : Queue)
    (h : uniqueIds q) :
    ((syncReadingProgress net q).Sublist q) ∧
    (∀ op ∈ q, net op = false → op ∈ syncReadingProgress net q) ∧
    (∀ op1 op2 op3 : QueuedOp, net op1 = true → net op2 = false →
      op1.id ≠ op2.id → op1.id ≠ op3.id →
      syncReadingProgress net [op1, op2, op3] = [op2, op3]) := by
  refine ⟨replayLoop_sublist net q q, ?_, ?_⟩
  · intro op hq hf
    refine replayLoop_mem_of_fail net q q op hq hf ?_
    intro op2 h2 hn2 heq
    by_cases hsame : op2 = op
    · rw [hsame] at hn2
      rw [hn2] at hf
      exact Bool.noConfusion hf
    · have hsym : Symmetric (fun a b : QueuedOp => a.id ≠ b.id) :=
        fun a b hab => Ne.symm hab
      exact (List.Pairwise.forall hsym h h2 hq hsame) heq
  · intro op1 op2 op3 h1 h2 h12 h13
    have e1 : (decide ¬op1.id = op1.id) = false := by simp
    have e2 : (decide ¬op2.id = op1.id) = true := by
      simp [Ne.symm h12]
    have e3 : (decide ¬op3.id = op1.id) = true := by
      simp [Ne.symm h13]
    simp [syncReadingProgress, replayLoop, deleteById, List.filter,
      h1, h2, e1, e2, e3]

/-- Witness for `C3_drain_halt_and_order`: three concrete queued
operations, the second replay failing. -/
theorem C3_drain_halt_and_order_witness :
    syncReadingProgress replayNetB [opA, opB, opC] = [opB, opC] :=
  (C3_drain_halt_and_order replayNetB [opA, opB, opC] (by decide)).2.2
    opA opB opC (by decide) (by decide) (by decide) (by decide)

/-! ## C6 — cache-first serving -/

/-- `putIntoNamed` preserves well-formedness when the written key is not a
chrome-extension URL. -/
lemma wfCS_putIntoNamed (cs : CacheStorage) (n u : String) (r : Response)
    (hwf : wfCS cs) (hu : isChromeExt u = false) :
    wfCS (putIntoNamed cs n u r) := by
  unfold putIntoNamed
  by_cases hany : cs.any (fun c => c.1 = n)
  · rw [if_pos hany]
    intro c hc e he
    rcases List.mem_map.mp hc with ⟨c0, hc0, rfl⟩
    by_cases h0 : c0.1 = n
    · rw [if_pos h0] at he
      rcases List.mem_append.mp he with h | h
      · exact hwf c0 hc0 e (List.mem_of_mem_filter h)
      · have he2 : e = (u, r) := by simpa using h
        rw [he2]
        exact hu
    · rw [if_neg h0] at he
      exact hwf c0 hc0 e he
  · rw [if_neg hany]
    intro c hc e he
    rcases List.mem_append.mp hc with h | h
    · exact hwf c h e he
    · have hc2 : c = (n, cachePut [] u r) := by simpa using h
      rw [hc2] at he
      have he2 : e = (u, r) := by simpa [cachePut] using he
      rw [he2]
      exact hu

/-- `putAllNamed` preserves well-formedness for a batch of
non-chrome-extension keys. -/
lemma wfCS_putAllNamed (n : String) :
    ∀ (es : List (String × Response)) (cs : CacheStorage), wfCS cs →
      (∀ e ∈ es, isChromeExt e.1 = false) → wfCS (putAllNamed cs n es) := by
  intro es
  induction es with
  | nil => intro cs hwf _; exact hwf
  | cons e0 rest ih =>
    intro cs hwf hks
    obtain ⟨u, r⟩ := e0
    refine ih (putIntoNamed cs n u r) ?_ ?_
    · exact wfCS_putIntoNamed cs n u r hwf
        (hks (u, r) (List.mem_cons_self (u, r) rest))
    · intro e he
      exact hks e (List.mem_cons_of_mem (u, r) he)

/-- Every key of a successful batched fetch comes from the manifest. -/
lemma fetchAll_keys (net : Network) :
    ∀ (urls : List String) (es : List (String × Response)),
      fetchAll net urls = some es → ∀ e ∈ es, e.1 ∈ urls := by
  intro urls
  induction urls with
  | nil =>
    intro es h e he
    simp only [fetchAll, Option.some.injEq] at h
    rw [← h] at he
    cases he
  | cons v rest ih =>
    intro es h e he
    unfold fetchAll at h
    cases hv : net v with
    | netFail => rw [hv] at h; cases h
    | ok r =>
      rw [hv] at h
      cases hr : fetchAll net rest with
      | none => rw [hr] at h; cases h
      | some es0 =>
        rw [hr] at h
        simp only [Option.map_some', Option.some.injEq] at h
        rw [← h] at he
        rcases List.mem_cons.mp he with h2 | h2
        · rw [h2]
          exact List.mem_cons_self v rest
        · exact List.mem_cons_of_mem v (ih es0 hr e h2)

/-- A successful install yields a well-formed storage: every key it adds
is a manifest URL, and no manifest URL is a chrome-extension URL. -/
lemma wfCS_install (net : Network) (cs cs2 : CacheStorage)
    (hwf : wfCS cs) (h : install net cs = some cs2) : wfCS cs2 := by
  unfold install installManifest at h
  cases hf : fetchAll net urlsToCache with
  | none => rw [hf] at h; cases h
  | some es =>
    rw [hf] at h
    simp only [Option.map_some', Option.some.injEq] at h
    rw [← h]
    refine wfCS_putAllNamed CACHE_NAME es cs hwf ?_
    intro e he
    have hmem : e.1 ∈ urlsToCache := fetchAll_keys net urlsToCache es hf e he
    have hall : ∀ u ∈ urlsToCache, isChromeExt u = false := by decide
    exact hall e.1 hmem

/-- A fetch event preserves well-formedness: the only key the handler ever
writes is its own request URL, which the cache-write invariant shows is
not a chrome-extension URL. -/
lemma wfCS_fetchEvent (net : Network) (s : SWState) (req : Request)
    (hwf : wfCS s.cs) : wfCS (fetchEvent net s req).1.cs := by
  unfold fetchEvent
  cases hw : (handleFetch net s.cs req).cacheWrite with
  | none => simpa [applyWrite, hw] using hwf
  | some ur =>
    obtain ⟨u, r⟩ := ur
    have hinv := handleFetch_cacheWrite_inv net s.cs req u r hw
    have hu : isChromeExt u = false := by
      rw [hinv.2.2.1]
      exact hinv.2.1
    simpa [applyWrite, hw] using
      wfCS_putIntoNamed s.cs CACHE_NAME u r hwf hu

/-- The activate purge preserves well-formedness. -/
lemma wfCS_activate (cs : CacheStorage) (hwf : wfCS cs) : wfCS (activate cs) :=
  fun c hc e he => hwf c (List.mem_of_mem_filter hc) e he

/-- A hit in a well-formed storage can only be at a non-chrome-extension
URL. -/
lemma cachesMatch_key_wf (cs : CacheStorage) (url : String) (r : Response)
    (hwf : wfCS cs) (h : cachesMatch cs url = some r) :
    isChromeExt url = false := by
  induction cs with
  | nil => cases h
  | cons c rest ih =>
    unfold cachesMatch at h
    cases hc : cacheLookup c.2 url with
    | some r2 =>
      unfold cacheLookup at hc
      cases hfind : c.2.find? (fun e => e.1 = url) with
      | none => rw [hfind] at hc; cases hc
      | some e =>
        have hmem : e ∈ c.2 := List.mem_of_find?_eq_some hfind
        have hkey : e.1 = url := by
          have := List.find?_some hfind
          simpa using this
        have := hwf c (List.mem_cons_self c rest) e hmem
        rw [hkey] at this
        exact this
    | none =>
      rw [hc] at h
      exact ih (fun c2 hc2 e he => hwf c2 (List.mem_cons_of_mem c hc2) e he) h

/-- C6: on a GET request whose key has an entry in a well-formed cache
storage, the fetch handler returns exactly that cached entry, performs no
network call, and writes nothing to the cache. -/
theorem C6_cache_first (net : Network) (cs : CacheStorage) (req : Request)
    (hwf : wfCS cs) (hm : req.method = Method.GET) (r : Response)
    (hhit : cachesMatch cs req.url = some r) :
    handleFetch net cs req =
      { result := FetchResult.responded r, cacheWrite := none, netCall := none } := by
  have hce : isChromeExt req.url = false := cachesMatch_key_wf cs req.url r hwf hhit
  unfold handleFetch
  rw [if_neg (by simp [hm]), if_neg (by simp [hce]), hhit]

/-- Witness for `C6_cache_first` at a concrete hit. -/
theorem C6_cache_first_witness :
    handleFetch netDown oneEntryCS getReq =
      { result := FetchResult.responded okResp, cacheWrite := none,
        netCall := none } :=
  C6_cache_first netDown oneEntryCS getReq
    (by unfold wfCS; decide) (by decide) okResp (by decide)

end BookWeb
